import Mathlib

/-!
Shallow embedding of `src/providers/cryptography/hmac.c` (magma).

The file under verification is the multi-round HMAC driver: validation of the
caller-supplied output stringer, the init / update x rounds / finalize
protocol against the (opaque) HMAC primitive, and the auto-allocation path
used when the caller passes a NULL output.

The stringer (`stringer_t`) accessors (`st_empty`, `st_valid_avail`,
`st_avail_get`, `st_length_get`, `st_valid_destination`, `st_valid_tracked`,
`st_length_set`, `st_data_get`, `st_alloc`, `st_free`) and the OpenSSL-backed
HMAC primitive live outside this repository fragment; they are modelled below
(the stringer capability model from the spec's buffer description, the
primitive as an opaque oracle).  Everything else is a direct transcription of
the C control flow.  Calls to the primitive and the allocator are recorded in
an event trace so that claims about how often each operation happens, and in
which order, can be stated and proved.
-/

set_option autoImplicit false

namespace Magma.Hmac

/-- A digest algorithm handle (`digest_t` / `EVP_MD`).  The only observation
the code makes of it is `EVP_MD_size_d`, whose (possibly non-positive) return
value is the field `mdSize`. -/
structure Digest where
  mdSize : Int
deriving DecidableEq, Repr

/-- Modelled from the spec: the Sized Mutable Buffer (`stringer_t`).  The spec
describes it as a byte array with a recorded `length`, a `capacity`
(meaningful when the AVAILABLE flag is set), and capability flags AVAILABLE,
DESTINATION (writable) and TRACKED (auto-update length after a write) read
from a fixed-position header. -/
structure Stringer where
  availFlag : Bool
  destFlag : Bool
  trackedFlag : Bool
  length : Nat
  capacity : Nat
  data : List Nat
deriving DecidableEq, Repr

/-- Modelled from the spec: `st_valid_avail` — the AVAILABLE capability flag. -/
def st_valid_avail (t : Stringer) : Bool := t.availFlag

/-- Modelled from the spec: `st_valid_destination` — the DESTINATION
(writable) capability flag. -/
def st_valid_destination (t : Stringer) : Bool := t.destFlag

/-- Modelled from the spec: `st_valid_tracked` — the TRACKED (auto-update
length) capability flag. -/
def st_valid_tracked (t : Stringer) : Bool := t.trackedFlag

/-- Modelled from the spec: `st_avail_get` — the buffer's capacity. -/
def st_avail_get (t : Stringer) : Nat := t.capacity

/-- Modelled from the spec: `st_length_get` — the buffer's recorded length. -/
def st_length_get (t : Stringer) : Nat := t.length

/-- Modelled from the spec: `st_data_get` — the buffer's data region. -/
def st_data_get (t : Stringer) : List Nat := t.data

/-- Modelled from the spec: `st_length_set` — overwrite the recorded length. -/
def st_length_set (t : Stringer) (n : Nat) : Stringer := { t with length := n }

/-- Modelled from the spec: `st_empty` — true when the stringer is absent
(NULL) or holds no bytes. -/
def st_empty : Option Stringer → Bool
  | none => true
  | some t => t.length == 0

/-- Transcribes `buffer_size_get` (hmac.c, lines 26-37): the effective
available size of a buffer — its capacity when the AVAILABLE flag is set, its
length otherwise. -/
def buffer_size_get (buffer : Stringer) : Nat :=
  if st_valid_avail buffer then st_avail_get buffer else st_length_get buffer

/-- The distinct diagnostic messages logged on the failure paths of
`hmac_multi_digest_nonnull_output` / `hmac_multi_digest_null_output`,
one constructor per `log_pedantic` / `log_error` call site. -/
inductive LogMsg where
  | roundsMustBePositive
  | digestIsNull
  | invalidDigestSize
  | inputEmpty
  | keyEmpty
  | outputNull
  | cannotWrite
  | outputTooSmall
  | initFailed
  | updateFailed
  | finalFailed
  | sizeMismatch
  | allocFailed
deriving DecidableEq, Repr

/-- Observable events of one call: calls into the HMAC primitive, allocator
traffic, and log messages, in program order. -/
inductive Event where
  | ctxInit : Event
  | hmacInit (keyData : List Nat) (keyLen : Nat) (md : Digest) : Event
  | hmacUpdate (data : List Nat) (len : Nat) : Event
  | hmacFinal : Event
  | ctxCleanup : Event
  | alloc (n : Nat) : Event
  | free : Event
  | log (m : LogMsg) : Event
deriving DecidableEq, Repr

/-- The opaque HMAC primitive, as an oracle: whether `HMAC_Init_ex_d`
succeeds, whether the `i`-th `HMAC_Update_d` call succeeds, whether
`HMAC_Final_d` succeeds, and — when it succeeds — the bytes it writes into
the output data region (their count is what it reports through the
`hmac_output_size` out-parameter). -/
structure HmacOracle where
  initOk : Bool
  updateOk : Nat → Bool
  finalOk : Bool
  finalBytes : List Nat

/-- Writing `src` into a data region `dst` starting at offset 0: the bytes of
`src` replace the first `src.length` bytes of `dst`. -/
def writeBytes (src dst : List Nat) : List Nat :=
  src ++ dst.drop src.length

/-- The update loop of `hmac_multi_digest_nonnull_output` (lines 114-122):
`n` remaining iterations, `i` the index of the next one.  Returns whether all
updates succeeded and the trace of `HMAC_Update_d` calls actually made (a
failing call is still a call; the loop stops after it). -/
def runUpdates (O : HmacOracle) (ev : Event) : Nat → Nat → Bool × List Event
  | 0, _ => (true, [])
  | Nat.succ n, i =>
    if O.updateOk i then
      let r := runUpdates O ev n (i + 1)
      (r.1, ev :: r.2)
    else
      (false, [ev])

/-- The result of one call: `ret` is the returned `stringer_t *` (`none` for
NULL), `out` the post-state of the caller's output buffer (when one was
passed), `trace` the events, and `crashed` records a dereference of a NULL
digest handle (undefined behaviour in the C). -/
structure CallResult where
  ret : Option Stringer
  out : Option Stringer
  trace : List Event
  crashed : Bool
deriving DecidableEq, Repr

/-- The state of the output buffer after a successful `HMAC_Final_d` (line
126): the finalize bytes overwrite its data region starting at offset 0. -/
def hmacWrittenOut (O : HmacOracle) (ov : Stringer) : Stringer :=
  { ov with data := writeBytes O.finalBytes ov.data }

/-- The state of the output buffer a successful call returns (lines 136-140):
the finalize bytes written, and — only when TRACKED is set — the recorded
length updated to the digest output size. -/
def hmacSuccessOut (O : HmacOracle) (d : Digest) (ov : Stringer) : Stringer :=
  if st_valid_tracked ov then st_length_set (hmacWrittenOut O ov) d.mdSize.toNat
  else hmacWrittenOut O ov

/-- The context phase of `hmac_multi_digest_nonnull_output` (lines 102-148),
entered once all validations have passed: `HMAC_CTX_init_d`,
`HMAC_Init_ex_d` keyed with `kv` and bound to `d`, `rounds` calls to
`HMAC_Update_d` each fed `sv`'s data and length, `HMAC_Final_d` into `out`'s
data region, the output-size consistency check, the TRACKED length update,
and `HMAC_CTX_cleanup_d` on every exit. -/
def hmacRoundPhase (O : HmacOracle) (rounds : Nat) (d : Digest)
    (sv kv out : Stringer) : CallResult :=
  if O.initOk = false then
    { ret := none, out := some out
      trace := [Event.ctxInit, Event.hmacInit kv.data kv.length d,
                Event.log LogMsg.initFailed, Event.ctxCleanup]
      crashed := false }
  else if (runUpdates O (Event.hmacUpdate sv.data sv.length) rounds 0).1 = false then
    { ret := none, out := some out
      trace := Event.ctxInit :: Event.hmacInit kv.data kv.length d ::
        ((runUpdates O (Event.hmacUpdate sv.data sv.length) rounds 0).2 ++
          [Event.log LogMsg.updateFailed, Event.ctxCleanup])
      crashed := false }
  else if O.finalOk = false then
    { ret := none, out := some out
      trace := Event.ctxInit :: Event.hmacInit kv.data kv.length d ::
        ((runUpdates O (Event.hmacUpdate sv.data sv.length) rounds 0).2 ++
          [Event.hmacFinal, Event.log LogMsg.finalFailed, Event.ctxCleanup])
      crashed := false }
  else if d.mdSize.toNat ≠ O.finalBytes.length then
    { ret := none, out := some (hmacWrittenOut O out)
      trace := Event.ctxInit :: Event.hmacInit kv.data kv.length d ::
        ((runUpdates O (Event.hmacUpdate sv.data sv.length) rounds 0).2 ++
          [Event.hmacFinal, Event.log LogMsg.sizeMismatch, Event.ctxCleanup])
      crashed := false }
  else
    { ret := some (hmacSuccessOut O d out), out := some (hmacSuccessOut O d out)
      trace := Event.ctxInit :: Event.hmacInit kv.data kv.length d ::
        ((runUpdates O (Event.hmacUpdate sv.data sv.length) rounds 0).2 ++
          [Event.hmacFinal, Event.ctxCleanup])
      crashed := false }

/-- Transcribes `hmac_multi_digest_nonnull_output` (hmac.c, lines 39-149):
the validated path.  The five validations, in source order, then the context
phase. -/
def hmac_multi_digest_nonnull_output (O : HmacOracle) (rounds : Nat)
    (digest : Option Digest) (s key output : Option Stringer) : CallResult :=
  if rounds < 1 then
    { ret := none, out := output, trace := [Event.log LogMsg.roundsMustBePositive], crashed := false }
  else match digest with
  | none =>
    { ret := none, out := output, trace := [Event.log LogMsg.digestIsNull], crashed := false }
  | some d =>
    if d.mdSize < 1 then
      { ret := none, out := output, trace := [Event.log LogMsg.invalidDigestSize], crashed := false }
    else match s with
    | none =>
      { ret := none, out := output, trace := [Event.log LogMsg.inputEmpty], crashed := false }
    | some sv =>
      if sv.length = 0 then
        { ret := none, out := output, trace := [Event.log LogMsg.inputEmpty], crashed := false }
      else match key with
      | none =>
        { ret := none, out := output, trace := [Event.log LogMsg.keyEmpty], crashed := false }
      | some kv =>
        if kv.length = 0 then
          { ret := none, out := output, trace := [Event.log LogMsg.keyEmpty], crashed := false }
        else match output with
        | none =>
          { ret := none, out := none, trace := [Event.log LogMsg.outputNull], crashed := false }
        | some out =>
          if st_valid_destination out = false then
            { ret := none, out := some out, trace := [Event.log LogMsg.cannotWrite], crashed := false }
          else if buffer_size_get out < d.mdSize.toNat then
            { ret := none, out := some out, trace := [Event.log LogMsg.outputTooSmall], crashed := false }
          else
            hmacRoundPhase O rounds d sv kv out

/-- The allocator oracle: whether `st_alloc` succeeds, and the capability
flags the allocator gives the fresh buffer (the spec leaves AVAILABLE and
TRACKED to the allocator's discretion; DESTINATION is set). -/
structure AllocOracle where
  allocOk : Bool
  allocAvail : Bool
  allocTracked : Bool

/-- The fresh buffer `st_alloc n` produces when it succeeds: writable,
capacity and length both `n`, zeroed data region. -/
def allocBuffer (A : AllocOracle) (n : Nat) : Stringer :=
  { availFlag := A.allocAvail, destFlag := true, trackedFlag := A.allocTracked
    length := n, capacity := n, data := List.replicate n 0 }

/-- Modelled from the spec: `st_alloc` — allocate a writable byte buffer of
size `n`, returning the owned buffer or failure. -/
def st_alloc (A : AllocOracle) (n : Nat) : Option Stringer :=
  if A.allocOk then some (allocBuffer A n) else none

/-- Conversion of the `int_t` returned by `EVP_MD_size_d` to the `size_t`
argument of `st_alloc` (two's-complement reinterpretation). -/
def sizeTToNat (i : Int) : Nat := (i % (2 : Int) ^ 64).toNat

/-- Transcribes `hmac_multi_digest_null_output` (hmac.c, lines 151-188): the
auto-allocation path.  Note the C calls `EVP_MD_size_d(digest)` with no NULL
check (a NULL handle is dereferenced — recorded as `crashed`) and passes the
result straight to `st_alloc` with no positivity check. -/
def hmac_multi_digest_null_output (O : HmacOracle) (A : AllocOracle) (rounds : Nat)
    (digest : Option Digest) (s key : Option Stringer) : CallResult :=
  match digest with
  | none =>
    { ret := none, out := none, trace := [], crashed := true }
  | some d =>
    let n := sizeTToNat d.mdSize
    match st_alloc A n with
    | none =>
      { ret := none, out := none
        trace := [Event.alloc n, Event.log LogMsg.allocFailed], crashed := false }
    | some buf =>
      let r := hmac_multi_digest_nonnull_output O rounds (some d) s key (some buf)
      match r.ret with
      | none =>
        { ret := none, out := none
          trace := (Event.alloc n :: r.trace) ++ [Event.free], crashed := r.crashed }
      | some o =>
        { ret := some o, out := none, trace := Event.alloc n :: r.trace, crashed := r.crashed }

/-- Transcribes `hmac_multi_digest` (hmac.c, lines 201-227): dispatch on
whether the caller supplied an output buffer. -/
def hmac_multi_digest (O : HmacOracle) (A : AllocOracle) (rounds : Nat)
    (digest : Option Digest) (s key output : Option Stringer) : CallResult :=
  match output with
  | none => hmac_multi_digest_null_output O A rounds digest s key
  | some o => hmac_multi_digest_nonnull_output O rounds digest s key (some o)

/-- Transcribes `hmac_digest` (hmac.c, lines 237-240): the single-round
alias. -/
def hmac_digest (O : HmacOracle) (A : AllocOracle) (digest : Option Digest)
    (s key output : Option Stringer) : CallResult :=
  hmac_multi_digest O A 1 digest s key output

/-- Event classifiers used to count primitive calls in a trace. -/
def isCtxInitEv : Event → Bool
  | Event.ctxInit => true
  | _ => false

def isHmacInitEv : Event → Bool
  | Event.hmacInit _ _ _ => true
  | _ => false

def isUpdateEv : Event → Bool
  | Event.hmacUpdate _ _ => true
  | _ => false

def isFinalEv : Event → Bool
  | Event.hmacFinal => true
  | _ => false

def isCleanupEv : Event → Bool
  | Event.ctxCleanup => true
  | _ => false

/-- Number of events of a given kind in a trace. -/
def countEv (p : Event → Bool) (tr : List Event) : Nat := (tr.filter p).length

/-- The five validations of the Round Engine, as one predicate (spec 4.3):
rounds positive, digest size positive, input and key non-empty, output
writable and large enough. -/
def validationsPass (rounds : Nat) (d : Digest) (sv kv ov : Stringer) : Prop :=
  1 ≤ rounds ∧ 1 ≤ d.mdSize ∧ sv.length ≠ 0 ∧ kv.length ≠ 0 ∧
    st_valid_destination ov = true ∧ d.mdSize.toNat ≤ buffer_size_get ov

instance (rounds : Nat) (d : Digest) (sv kv ov : Stringer) :
    Decidable (validationsPass rounds d sv kv ov) := by
  unfold validationsPass; infer_instance

/-- The primitive cooperates for a whole call of `rounds` rounds: init, every
update, and finalize all succeed. -/
def oracleRuns (O : HmacOracle) (rounds : Nat) : Prop :=
  O.initOk = true ∧ (∀ j, j < rounds → O.updateOk j = true) ∧ O.finalOk = true

instance (O : HmacOracle) (rounds : Nat) : Decidable (oracleRuns O rounds) := by
  unfold oracleRuns; infer_instance

/-! ### Helper lemmas about the update loop and event counting -/

theorem runUpdates_success (O : HmacOracle) (ev : Event) :
    ∀ (n i : Nat), (∀ j, j < n → O.updateOk (i + j) = true) →
      runUpdates O ev n i = (true, List.replicate n ev) := by
  intro n
  induction n with
  | zero => intro i _; simp [runUpdates]
  | succ m ih =>
    intro i h
    have h0 : O.updateOk i = true := by simpa using h 0 (Nat.succ_pos m)
    have hrec : runUpdates O ev m (i + 1) = (true, List.replicate m ev) := by
      apply ih
      intro j hj
      have := h (j + 1) (Nat.succ_lt_succ hj)
      simpa [Nat.add_assoc, Nat.add_comm 1 j] using this
    simp [runUpdates, h0, hrec, List.replicate_succ]

theorem runUpdates_shape (O : HmacOracle) (ev : Event) :
    ∀ (n i : Nat), ∃ k, k ≤ n ∧ (runUpdates O ev n i).2 = List.replicate k ev := by
  intro n
  induction n with
  | zero => intro i; exact ⟨0, Nat.le_refl 0, by simp [runUpdates]⟩
  | succ m ih =>
    intro i
    by_cases h : O.updateOk i = true
    · obtain ⟨k, hk, heq⟩ := ih (i + 1)
      exact ⟨k + 1, Nat.succ_le_succ hk,
        by simp [runUpdates, h, heq, List.replicate_succ]⟩
    · exact ⟨1, Nat.succ_le_succ (Nat.zero_le m), by simp [runUpdates, h]⟩

@[simp] theorem countEv_nil (p : Event → Bool) : countEv p [] = 0 := rfl

@[simp] theorem countEv_cons (p : Event → Bool) (x : Event) (tr : List Event) :
    countEv p (x :: tr) = (if p x then 1 else 0) + countEv p tr := by
  by_cases h : p x = true <;> simp [countEv, List.filter_cons, h, Nat.add_comm]

@[simp] theorem countEv_append (p : Event → Bool) (l1 l2 : List Event) :
    countEv p (l1 ++ l2) = countEv p l1 + countEv p l2 := by
  simp [countEv, List.filter_append]

@[simp] theorem countEv_replicate (p : Event → Bool) (n : Nat) (ev : Event) :
    countEv p (List.replicate n ev) = if p ev then n else 0 := by
  induction n with
  | zero => simp
  | succ m ih =>
    by_cases h : p ev = true
    · simp [List.replicate_succ, ih, h, Nat.add_comm]
    · simp [List.replicate_succ, ih, h]

@[simp] theorem hmacWrittenOut_length (O : HmacOracle) (ov : Stringer) :
    (hmacWrittenOut O ov).length = ov.length := rfl

@[simp] theorem hmacWrittenOut_data (O : HmacOracle) (ov : Stringer) :
    (hmacWrittenOut O ov).data = writeBytes O.finalBytes ov.data := rfl

theorem hmacSuccessOut_length (O : HmacOracle) (d : Digest) (ov : Stringer) :
    (hmacSuccessOut O d ov).length =
      if st_valid_tracked ov then d.mdSize.toNat else ov.length := by
  unfold hmacSuccessOut st_length_set
  split <;> rfl

theorem hmacSuccessOut_data (O : HmacOracle) (d : Digest) (ov : Stringer) :
    (hmacSuccessOut O d ov).data = writeBytes O.finalBytes ov.data := by
  unfold hmacSuccessOut st_length_set
  split <;> rfl

/-! ### Characterisations of the validated path -/

/-- When the five validations pass, the validated path is exactly its context
phase. -/
theorem nonnull_valid_eq (O : HmacOracle) (rounds : Nat) (d : Digest)
    (sv kv ov : Stringer) (h : validationsPass rounds d sv kv ov) :
    hmac_multi_digest_nonnull_output O rounds (some d) (some sv) (some kv) (some ov)
      = hmacRoundPhase O rounds d sv kv ov := by
  obtain ⟨hr, hd, hs, hk, hw, hcap⟩ := h
  simp [hmac_multi_digest_nonnull_output, hs, hk, hw,
        not_lt.mpr hr, not_lt.mpr hd, not_lt.mpr hcap]

/-- The context phase when the primitive cooperates and finalize reports a
byte count different from the digest output size. -/
theorem hmacRoundPhase_run_mismatch (O : HmacOracle) (rounds : Nat) (d : Digest)
    (sv kv out : Stringer) (hO : oracleRuns O rounds)
    (hne : d.mdSize.toNat ≠ O.finalBytes.length) :
    hmacRoundPhase O rounds d sv kv out =
      { ret := none, out := some (hmacWrittenOut O out)
        trace := Event.ctxInit :: Event.hmacInit kv.data kv.length d ::
          (List.replicate rounds (Event.hmacUpdate sv.data sv.length) ++
            [Event.hmacFinal, Event.log LogMsg.sizeMismatch, Event.ctxCleanup])
        crashed := false } := by
  obtain ⟨hi, hu, hf⟩ := hO
  have hupd : runUpdates O (Event.hmacUpdate sv.data sv.length) rounds 0
      = (true, List.replicate rounds (Event.hmacUpdate sv.data sv.length)) :=
    runUpdates_success O _ rounds 0 (by intro j hj; simpa using hu j hj)
  simp [hmacRoundPhase, hi, hf, hupd, hne]

/-- The context phase when the primitive cooperates and the reported byte
count matches the digest output size. -/
theorem hmacRoundPhase_run_success (O : HmacOracle) (rounds : Nat) (d : Digest)
    (sv kv out : Stringer) (hO : oracleRuns O rounds)
    (heq : d.mdSize.toNat = O.finalBytes.length) :
    hmacRoundPhase O rounds d sv kv out =
      { ret := some (hmacSuccessOut O d out), out := some (hmacSuccessOut O d out)
        trace := Event.ctxInit :: Event.hmacInit kv.data kv.length d ::
          (List.replicate rounds (Event.hmacUpdate sv.data sv.length) ++
            [Event.hmacFinal, Event.ctxCleanup])
        crashed := false } := by
  obtain ⟨hi, hu, hf⟩ := hO
  have hupd : runUpdates O (Event.hmacUpdate sv.data sv.length) rounds 0
      = (true, List.replicate rounds (Event.hmacUpdate sv.data sv.length)) :=
    runUpdates_success O _ rounds 0 (by intro j hj; simpa using hu j hj)
  simp [hmacRoundPhase, hi, hf, hupd, heq]

/-- Every possible outcome of the context phase: the trace is always
`ctxInit`, the keyed `hmacInit`, at most `rounds` update events, a
branch-identifying tail, and a final `ctxCleanup`. -/
theorem hmacRoundPhase_master (O : HmacOracle) (rounds : Nat) (d : Digest)
    (sv kv out : Stringer) :
    ∃ k tail retv outv, k ≤ rounds ∧
      hmacRoundPhase O rounds d sv kv out =
        { ret := retv, out := outv
          trace := Event.ctxInit :: Event.hmacInit kv.data kv.length d ::
            (List.replicate k (Event.hmacUpdate sv.data sv.length) ++
              (tail ++ [Event.ctxCleanup]))
          crashed := false } ∧
      ((tail = [Event.log LogMsg.initFailed] ∧ retv = none ∧ outv = some out)
       ∨ (tail = [Event.log LogMsg.updateFailed] ∧ retv = none ∧ outv = some out)
       ∨ (tail = [Event.hmacFinal, Event.log LogMsg.finalFailed] ∧ retv = none
            ∧ outv = some out)
       ∨ (tail = [Event.hmacFinal, Event.log LogMsg.sizeMismatch] ∧ retv = none
            ∧ O.finalOk = true ∧ d.mdSize.toNat ≠ O.finalBytes.length
            ∧ outv = some (hmacWrittenOut O out))
       ∨ (tail = [Event.hmacFinal] ∧ O.finalOk = true
            ∧ d.mdSize.toNat = O.finalBytes.length
            ∧ retv = some (hmacSuccessOut O d out)
            ∧ outv = some (hmacSuccessOut O d out))) := by
  obtain ⟨k, hk, hupd⟩ := runUpdates_shape O (Event.hmacUpdate sv.data sv.length) rounds 0
  by_cases hi : O.initOk = false
  · exact ⟨0, [Event.log LogMsg.initFailed], none, some out, Nat.zero_le _,
      by simp [hmacRoundPhase, hi], Or.inl ⟨rfl, rfl, rfl⟩⟩
  · by_cases hu : (runUpdates O (Event.hmacUpdate sv.data sv.length) rounds 0).1 = false
    · exact ⟨k, [Event.log LogMsg.updateFailed], none, some out, hk,
        by simp [hmacRoundPhase, hi, hu, hupd], Or.inr (Or.inl ⟨rfl, rfl, rfl⟩)⟩
    · by_cases hf : O.finalOk = false
      · exact ⟨k, [Event.hmacFinal, Event.log LogMsg.finalFailed], none, some out, hk,
          by simp [hmacRoundPhase, hi, hu, hf, hupd],
          Or.inr (Or.inr (Or.inl ⟨rfl, rfl, rfl⟩))⟩
      · have hfT : O.finalOk = true := by simpa using hf
        by_cases hne : d.mdSize.toNat = O.finalBytes.length
        · exact ⟨k, [Event.hmacFinal], some (hmacSuccessOut O d out),
            some (hmacSuccessOut O d out), hk,
            by simp [hmacRoundPhase, hi, hu, hf, hne, hupd],
            Or.inr (Or.inr (Or.inr (Or.inr ⟨rfl, hfT, hne, rfl, rfl⟩)))⟩
        · exact ⟨k, [Event.hmacFinal, Event.log LogMsg.sizeMismatch], none,
            some (hmacWrittenOut O out), hk,
            by simp [hmacRoundPhase, hi, hu, hf, hne, hupd],
            Or.inr (Or.inr (Or.inr (Or.inl ⟨rfl, rfl, hfT, hne, rfl⟩)))⟩

/-- Every possible outcome of the validated path: either a validation failure
(result NULL, the output untouched, a single log message, no primitive
traffic), or the validations passed and the call is the context phase. -/
theorem nonnull_master (O : HmacOracle) (rounds : Nat) (digest : Option Digest)
    (s key output : Option Stringer) :
    (∃ m, hmac_multi_digest_nonnull_output O rounds digest s key output
        = { ret := none, out := output, trace := [Event.log m], crashed := false })
    ∨ (∃ d sv kv ov, digest = some d ∧ s = some sv ∧ key = some kv ∧
        output = some ov ∧ validationsPass rounds d sv kv ov ∧
        hmac_multi_digest_nonnull_output O rounds digest s key output
          = hmacRoundPhase O rounds d sv kv ov) := by
  by_cases h1 : rounds < 1
  · exact Or.inl ⟨LogMsg.roundsMustBePositive,
      by simp [hmac_multi_digest_nonnull_output, h1]⟩
  · rcases digest with _ | d
    · exact Or.inl ⟨LogMsg.digestIsNull,
        by simp [hmac_multi_digest_nonnull_output, h1]⟩
    · by_cases h2 : d.mdSize < 1
      · exact Or.inl ⟨LogMsg.invalidDigestSize,
          by simp [hmac_multi_digest_nonnull_output, h1, h2]⟩
      · rcases s with _ | sv
        · exact Or.inl ⟨LogMsg.inputEmpty,
            by simp [hmac_multi_digest_nonnull_output, h1, h2]⟩
        · by_cases h3 : sv.length = 0
          · exact Or.inl ⟨LogMsg.inputEmpty,
              by simp [hmac_multi_digest_nonnull_output, h1, h2, h3]⟩
          · rcases key with _ | kv
            · exact Or.inl ⟨LogMsg.keyEmpty,
                by simp [hmac_multi_digest_nonnull_output, h1, h2, h3]⟩
            · by_cases h4 : kv.length = 0
              · exact Or.inl ⟨LogMsg.keyEmpty,
                  by simp [hmac_multi_digest_nonnull_output, h1, h2, h3, h4]⟩
              · rcases output with _ | ov
                · exact Or.inl ⟨LogMsg.outputNull,
                    by simp [hmac_multi_digest_nonnull_output, h1, h2, h3, h4]⟩
                · by_cases h5 : st_valid_destination ov = false
                  · exact Or.inl ⟨LogMsg.cannotWrite,
                      by simp [hmac_multi_digest_nonnull_output, h1, h2, h3, h4, h5]⟩
                  · by_cases h6 : buffer_size_get ov < d.mdSize.toNat
                    · exact Or.inl ⟨LogMsg.outputTooSmall,
                        by simp [hmac_multi_digest_nonnull_output, h1, h2, h3, h4, h5, h6]⟩
                    · refine Or.inr ⟨d, sv, kv, ov, rfl, rfl, rfl, rfl,
                        ⟨by omega, by omega, h3, h4, by simpa using h5,
                          Nat.le_of_not_lt h6⟩,
                        by simp [hmac_multi_digest_nonnull_output, h1, h2, h3, h4, h5, h6]⟩

/-- The validated path never frees anything. -/
theorem nonnull_no_free (O : HmacOracle) (rounds : Nat) (digest : Option Digest)
    (s key output : Option Stringer) :
    Event.free ∉ (hmac_multi_digest_nonnull_output O rounds digest s key output).trace := by
  rcases nonnull_master O rounds digest s key output with ⟨m, hm⟩ |
    ⟨d, sv, kv, ov, _, _, _, _, _, heq⟩
  · simp [hm]
  · rw [heq]
    obtain ⟨k, tail, retv, outv, _, hphase, hcases⟩ :=
      hmacRoundPhase_master O rounds d sv kv ov
    rw [hphase]
    rcases hcases with ⟨ht, _⟩ | ⟨ht, _⟩ | ⟨ht, _⟩ | ⟨ht, _⟩ | ⟨ht, _⟩ <;>
      subst ht <;> simp [List.mem_replicate]

/-- The validated path never dereferences a NULL digest handle. -/
theorem nonnull_not_crashed (O : HmacOracle) (rounds : Nat) (digest : Option Digest)
    (s key output : Option Stringer) :
    (hmac_multi_digest_nonnull_output O rounds digest s key output).crashed = false := by
  rcases nonnull_master O rounds digest s key output with ⟨m, hm⟩ |
    ⟨d, sv, kv, ov, _, _, _, _, _, heq⟩
  · simp [hm]
  · rw [heq]
    obtain ⟨k, tail, retv, outv, _, hphase, _⟩ :=
      hmacRoundPhase_master O rounds d sv kv ov
    rw [hphase]

/-! ### Concrete sample values used by the witnesses -/

/-- A primitive oracle on which every call succeeds and finalize writes 32
bytes. -/
def oracleAllOk : HmacOracle :=
  { initOk := true, updateOk := fun _ => true, finalOk := true
    finalBytes := List.replicate 32 7 }

/-- A primitive oracle whose finalize succeeds but reports 31 bytes —
inconsistent with a 32-byte digest. -/
def oracleShortFinal : HmacOracle :=
  { initOk := true, updateOk := fun _ => true, finalOk := true
    finalBytes := List.replicate 31 7 }

/-- An algorithm handle whose size query reports 32 bytes (SHA-256-like). -/
def sha256Handle : Digest := { mdSize := 32 }

/-- A two-byte input stringer. -/
def sampleInput : Stringer :=
  { availFlag := false, destFlag := false, trackedFlag := false
    length := 2, capacity := 2, data := [104, 105] }

/-- A three-byte key stringer. -/
def sampleKey : Stringer :=
  { availFlag := false, destFlag := false, trackedFlag := false
    length := 3, capacity := 3, data := [107, 101, 121] }

/-- A writable, length-tracked, fixed-size 32-byte output buffer. -/
def sampleOut32 : Stringer :=
  { availFlag := false, destFlag := true, trackedFlag := true
    length := 32, capacity := 32, data := List.replicate 32 0 }

/-- A writable output buffer one byte too small for a 32-byte digest. -/
def sampleOut31 : Stringer :=
  { availFlag := false, destFlag := true, trackedFlag := true
    length := 31, capacity := 31, data := List.replicate 31 0 }

/-- A 32-byte buffer without the DESTINATION capability. -/
def sampleOutReadOnly : Stringer :=
  { availFlag := false, destFlag := false, trackedFlag := false
    length := 32, capacity := 32, data := List.replicate 32 0 }

/-- An allocator that always succeeds, handing out fixed-size untracked
buffers. -/
def allocAlwaysOk : AllocOracle :=
  { allocOk := true, allocAvail := false, allocTracked := false }

/-- An allocator that always fails. -/
def allocNever : AllocOracle :=
  { allocOk := false, allocAvail := false, allocTracked := false }

/-! ### The claims -/

/-- C1: for every call to `hmac_multi_digest_nonnull_output` that passes all
five validations (and on which the primitive's own calls succeed), the
computation opens exactly one HMAC context keyed with `key` and bound to
`digest`, performs exactly `rounds` update calls, each feeding the entire
input `s` (its data from the start, for its full length), finalizes exactly
once, writing the result into `output`'s data region starting at offset 0;
keying and finalization never repeat regardless of `rounds`. -/
theorem hmac_round_engine_exact_protocol (O : HmacOracle) (rounds : Nat)
    (d : Digest) (sv kv ov : Stringer)
    (hv : validationsPass rounds d sv kv ov) (hO : oracleRuns O rounds) :
    (hmac_multi_digest_nonnull_output O rounds (some d) (some sv) (some kv) (some ov)).trace
      = Event.ctxInit :: Event.hmacInit kv.data kv.length d ::
          (List.replicate rounds (Event.hmacUpdate sv.data sv.length) ++
            (Event.hmacFinal ::
              (if d.mdSize.toNat = O.finalBytes.length then [Event.ctxCleanup]
               else [Event.log LogMsg.sizeMismatch, Event.ctxCleanup])))
    ∧ countEv isCtxInitEv
        (hmac_multi_digest_nonnull_output O rounds (some d) (some sv) (some kv) (some ov)).trace = 1
    ∧ countEv isHmacInitEv
        (hmac_multi_digest_nonnull_output O rounds (some d) (some sv) (some kv) (some ov)).trace = 1
    ∧ countEv isUpdateEv
        (hmac_multi_digest_nonnull_output O rounds (some d) (some sv) (some kv) (some ov)).trace = rounds
    ∧ countEv isFinalEv
        (hmac_multi_digest_nonnull_output O rounds (some d) (some sv) (some kv) (some ov)).trace = 1
    ∧ Option.map Stringer.data
        (hmac_multi_digest_nonnull_output O rounds (some d) (some sv) (some kv) (some ov)).out
        = some (writeBytes O.finalBytes ov.data) := by
  have hval := nonnull_valid_eq O rounds d sv kv ov hv
  by_cases hm : d.mdSize.toNat = O.finalBytes.length
  · rw [hval, hmacRoundPhase_run_success O rounds d sv kv ov hO hm]
    refine ⟨?_, ?_, ?_, ?_, ?_, ?_⟩ <;>
      simp [hm, isCtxInitEv, isHmacInitEv, isUpdateEv, isFinalEv, hmacSuccessOut_data]
  · rw [hval, hmacRoundPhase_run_mismatch O rounds d sv kv ov hO hm]
    refine ⟨?_, ?_, ?_, ?_, ?_, ?_⟩ <;>
      simp [hm, isCtxInitEv, isHmacInitEv, isUpdateEv, isFinalEv]

theorem hmac_round_engine_exact_protocol_witness :
    countEv isUpdateEv
      (hmac_multi_digest_nonnull_output oracleAllOk 3 (some sha256Handle)
        (some sampleInput) (some sampleKey) (some sampleOut32)).trace = 3
    ∧ countEv isFinalEv
      (hmac_multi_digest_nonnull_output oracleAllOk 3 (some sha256Handle)
        (some sampleInput) (some sampleKey) (some sampleOut32)).trace = 1 :=
  ⟨(hmac_round_engine_exact_protocol oracleAllOk 3 sha256Handle sampleInput
      sampleKey sampleOut32 (by decide) (by decide)).2.2.2.1,
   (hmac_round_engine_exact_protocol oracleAllOk 3 sha256Handle sampleInput
      sampleKey sampleOut32 (by decide) (by decide)).2.2.2.2.1⟩

/-- C3: the effective available size used by the capacity check is the
capacity when AVAILABLE is set and the length otherwise; given the earlier
validations, the call reaches cryptographic work (its trace opens with the
context init) exactly when this effective size is at least the digest output
size, and an undersized buffer fails with only the too-small diagnostic,
before any cryptographic work. -/
theorem capacity_check_uses_effective_size (O : HmacOracle) (rounds : Nat)
    (d : Digest) (sv kv ov : Stringer)
    (hr : 1 ≤ rounds) (hd : 1 ≤ d.mdSize) (hs : sv.length ≠ 0) (hk : kv.length ≠ 0)
    (hw : st_valid_destination ov = true) :
    buffer_size_get ov
      = (if st_valid_avail ov then st_avail_get ov else st_length_get ov)
    ∧ (d.mdSize.toNat ≤ buffer_size_get ov ↔
        ∃ rest, (hmac_multi_digest_nonnull_output O rounds (some d) (some sv)
            (some kv) (some ov)).trace = Event.ctxInit :: rest)
    ∧ (buffer_size_get ov < d.mdSize.toNat →
        hmac_multi_digest_nonnull_output O rounds (some d) (some sv) (some kv) (some ov)
          = { ret := none, out := some ov
              trace := [Event.log LogMsg.outputTooSmall], crashed := false }) := by
  have hfail : buffer_size_get ov < d.mdSize.toNat →
      hmac_multi_digest_nonnull_output O rounds (some d) (some sv) (some kv) (some ov)
        = { ret := none, out := some ov
            trace := [Event.log LogMsg.outputTooSmall], crashed := false } := by
    intro hlt
    simp [hmac_multi_digest_nonnull_output, not_lt.mpr hr, not_lt.mpr hd, hs, hk, hw, hlt]
  refine ⟨rfl, ⟨?_, ?_⟩, hfail⟩
  · intro hcap
    rw [nonnull_valid_eq O rounds d sv kv ov ⟨hr, hd, hs, hk, hw, hcap⟩]
    obtain ⟨k, tail, retv, outv, _, hphase, _⟩ :=
      hmacRoundPhase_master O rounds d sv kv ov
    rw [hphase]
    exact ⟨_, rfl⟩
  · rintro ⟨rest, hrest⟩
    by_contra hnot
    rw [hfail (Nat.lt_of_not_le hnot)] at hrest
    simp at hrest

theorem capacity_check_uses_effective_size_witness :
    hmac_multi_digest_nonnull_output oracleAllOk 1 (some sha256Handle)
        (some sampleInput) (some sampleKey) (some sampleOut31)
      = { ret := none, out := some sampleOut31
          trace := [Event.log LogMsg.outputTooSmall], crashed := false } :=
  (capacity_check_uses_effective_size oracleAllOk 1 sha256Handle sampleInput
      sampleKey sampleOut31 (by decide) (by decide) (by decide) (by decide)
      (by decide)).2.2 (by decide)

/-- C5: the five validations are checked in order — rounds, digest handle and
size, input, key, output presence / writability / capacity — each failing
with its own diagnostic, returning NULL, leaving the output untouched, and
performing no cryptographic work (the trace is the single log message);
empty or absent input or key is a validation failure, never a success. -/
theorem validations_checked_in_order (O : HmacOracle) (rounds : Nat)
    (digest : Option Digest) (s key output : Option Stringer) :
    (rounds = 0 →
      hmac_multi_digest_nonnull_output O rounds digest s key output
        = { ret := none, out := output
            trace := [Event.log LogMsg.roundsMustBePositive], crashed := false })
    ∧ (1 ≤ rounds → digest = none →
        hmac_multi_digest_nonnull_output O rounds digest s key output
          = { ret := none, out := output
              trace := [Event.log LogMsg.digestIsNull], crashed := false })
    ∧ (∀ d, 1 ≤ rounds → digest = some d → d.mdSize < 1 →
        hmac_multi_digest_nonnull_output O rounds digest s key output
          = { ret := none, out := output
              trace := [Event.log LogMsg.invalidDigestSize], crashed := false })
    ∧ (∀ d, 1 ≤ rounds → digest = some d → 1 ≤ d.mdSize → st_empty s = true →
        hmac_multi_digest_nonnull_output O rounds digest s key output
          = { ret := none, out := output
              trace := [Event.log LogMsg.inputEmpty], crashed := false })
    ∧ (∀ d, 1 ≤ rounds → digest = some d → 1 ≤ d.mdSize → st_empty s = false →
        st_empty key = true →
        hmac_multi_digest_nonnull_output O rounds digest s key output
          = { ret := none, out := output
              trace := [Event.log LogMsg.keyEmpty], crashed := false })
    ∧ (∀ d, 1 ≤ rounds → digest = some d → 1 ≤ d.mdSize → st_empty s = false →
        st_empty key = false → output = none →
        hmac_multi_digest_nonnull_output O rounds digest s key output
          = { ret := none, out := none
              trace := [Event.log LogMsg.outputNull], crashed := false })
    ∧ (∀ d ov, 1 ≤ rounds → digest = some d → 1 ≤ d.mdSize → st_empty s = false →
        st_empty key = false → output = some ov → st_valid_destination ov = false →
        hmac_multi_digest_nonnull_output O rounds digest s key output
          = { ret := none, out := some ov
              trace := [Event.log LogMsg.cannotWrite], crashed := false })
    ∧ (∀ d ov, 1 ≤ rounds → digest = some d → 1 ≤ d.mdSize → st_empty s = false →
        st_empty key = false → output = some ov → st_valid_destination ov = true →
        buffer_size_get ov < d.mdSize.toNat →
        hmac_multi_digest_nonnull_output O rounds digest s key output
          = { ret := none, out := some ov
              trace := [Event.log LogMsg.outputTooSmall], crashed := false }) := by
  refine ⟨?_, ?_, ?_, ?_, ?_, ?_, ?_, ?_⟩
  · intro h0
    subst h0
    simp [hmac_multi_digest_nonnull_output]
  · intro hr hdig
    subst hdig
    simp [hmac_multi_digest_nonnull_output, not_lt.mpr hr]
  · intro d hr hdig hsz
    subst hdig
    simp [hmac_multi_digest_nonnull_output, not_lt.mpr hr, hsz]
  · intro d hr hdig hsz hse
    subst hdig
    rcases s with _ | sv
    · simp [hmac_multi_digest_nonnull_output, not_lt.mpr hr, not_lt.mpr hsz]
    · simp [st_empty] at hse
      simp [hmac_multi_digest_nonnull_output, not_lt.mpr hr, not_lt.mpr hsz, hse]
  · intro d hr hdig hsz hse hke
    subst hdig
    rcases s with _ | sv
    · simp [st_empty] at hse
    · simp [st_empty] at hse
      rcases key with _ | kv
      · simp [hmac_multi_digest_nonnull_output, not_lt.mpr hr, not_lt.mpr hsz, hse]
      · simp [st_empty] at hke
        simp [hmac_multi_digest_nonnull_output, not_lt.mpr hr, not_lt.mpr hsz, hse, hke]
  · intro d hr hdig hsz hse hke hout
    subst hdig
    subst hout
    rcases s with _ | sv
    · simp [st_empty] at hse
    · simp [st_empty] at hse
      rcases key with _ | kv
      · simp [st_empty] at hke
      · simp [st_empty] at hke
        simp [hmac_multi_digest_nonnull_output, not_lt.mpr hr, not_lt.mpr hsz, hse, hke]
  · intro d ov hr hdig hsz hse hke hout hwr
    subst hdig
    subst hout
    rcases s with _ | sv
    · simp [st_empty] at hse
    · simp [st_empty] at hse
      rcases key with _ | kv
      · simp [st_empty] at hke
      · simp [st_empty] at hke
        simp [hmac_multi_digest_nonnull_output, not_lt.mpr hr, not_lt.mpr hsz, hse, hke, hwr]
  · intro d ov hr hdig hsz hse hke hout hwr hcap
    subst hdig
    subst hout
    rcases s with _ | sv
    · simp [st_empty] at hse
    · simp [st_empty] at hse
      rcases key with _ | kv
      · simp [st_empty] at hke
      · simp [st_empty] at hke
        simp [hmac_multi_digest_nonnull_output, not_lt.mpr hr, not_lt.mpr hsz, hse, hke,
              hwr, hcap]

theorem validations_checked_in_order_witness :
    hmac_multi_digest_nonnull_output oracleAllOk 0 (some sha256Handle)
        (some sampleInput) (some sampleKey) (some sampleOut32)
      = { ret := none, out := some sampleOut32
          trace := [Event.log LogMsg.roundsMustBePositive], crashed := false } :=
  (validations_checked_in_order oracleAllOk 0 (some sha256Handle)
      (some sampleInput) (some sampleKey) (some sampleOut32)).1 rfl

/-- C8: if finalize reports a byte count different from the digest's declared
output size, the call fails (returns NULL) with the size-mismatch diagnostic;
the mismatch is never silently accepted as success. -/
theorem size_mismatch_never_accepted (O : HmacOracle) (rounds : Nat)
    (d : Digest) (sv kv ov : Stringer)
    (hv : validationsPass rounds d sv kv ov) (hO : oracleRuns O rounds)
    (hne : d.mdSize.toNat ≠ O.finalBytes.length) :
    (hmac_multi_digest_nonnull_output O rounds (some d) (some sv) (some kv) (some ov)).ret
      = none
    ∧ Event.log LogMsg.sizeMismatch ∈
        (hmac_multi_digest_nonnull_output O rounds (some d) (some sv) (some kv)
          (some ov)).trace := by
  rw [nonnull_valid_eq O rounds d sv kv ov hv,
      hmacRoundPhase_run_mismatch O rounds d sv kv ov hO hne]
  exact ⟨rfl, by simp⟩

theorem size_mismatch_never_accepted_witness :
    (hmac_multi_digest_nonnull_output oracleShortFinal 1 (some sha256Handle)
        (some sampleInput) (some sampleKey) (some sampleOut32)).ret = none :=
  (size_mismatch_never_accepted oracleShortFinal 1 sha256Handle sampleInput
      sampleKey sampleOut32 (by decide) (by decide) (by decide)).1

theorem getLast_cons_cons_append (a b c : Event) (l1 l2 : List Event) :
    (a :: b :: (l1 ++ (l2 ++ [c]))).getLast? = some c := by
  have h1 : a :: b :: (l1 ++ (l2 ++ [c])) = (a :: b :: (l1 ++ l2)) ++ [c] := by simp
  rw [h1]
  exact List.getLast?_concat _

/-- C4: on success, the output buffer's recorded length is set to the digest
output size exactly when its TRACKED flag is set (otherwise it keeps its old
value); on every failure path the length field is unmodified. -/
theorem output_length_field_policy (O : HmacOracle) (rounds : Nat)
    (digest : Option Digest) (s key output : Option Stringer) :
    ((hmac_multi_digest_nonnull_output O rounds digest s key output).ret = none →
      Option.map Stringer.length
          (hmac_multi_digest_nonnull_output O rounds digest s key output).out
        = Option.map Stringer.length output)
    ∧ (∀ d ov, digest = some d → output = some ov →
        (hmac_multi_digest_nonnull_output O rounds digest s key output).ret.isSome →
        (hmac_multi_digest_nonnull_output O rounds digest s key output).out
          = (hmac_multi_digest_nonnull_output O rounds digest s key output).ret
        ∧ Option.map Stringer.length
            (hmac_multi_digest_nonnull_output O rounds digest s key output).ret
          = some (if st_valid_tracked ov then d.mdSize.toNat else ov.length)) := by
  rcases nonnull_master O rounds digest s key output with ⟨m, hm⟩ |
    ⟨d0, sv0, kv0, ov0, hdig, -, -, hout, -, heq⟩
  · rw [hm]
    exact ⟨fun _ => rfl, fun d ov _ _ hsome => by simp at hsome⟩
  · subst hdig; subst hout
    obtain ⟨k, tail, retv, outv, -, hphase, hcases⟩ :=
      hmacRoundPhase_master O rounds d0 sv0 kv0 ov0
    rw [heq, hphase]
    rcases hcases with ⟨-, hr1, ho1⟩ | ⟨-, hr1, ho1⟩ | ⟨-, hr1, ho1⟩ |
        ⟨-, hr1, -, -, ho1⟩ | ⟨-, -, -, hr1, ho1⟩
    · subst hr1; subst ho1
      exact ⟨fun _ => rfl, fun d ov _ _ hsome => by simp at hsome⟩
    · subst hr1; subst ho1
      exact ⟨fun _ => rfl, fun d ov _ _ hsome => by simp at hsome⟩
    · subst hr1; subst ho1
      exact ⟨fun _ => rfl, fun d ov _ _ hsome => by simp at hsome⟩
    · subst hr1; subst ho1
      exact ⟨fun _ => by simp, fun d ov _ _ hsome => by simp at hsome⟩
    · subst hr1; subst ho1
      refine ⟨fun hnone => by simp at hnone, ?_⟩
      intro d ov hd hov _
      obtain rfl : d0 = d := by injection hd
      obtain rfl : ov0 = ov := by injection hov
      exact ⟨rfl, by simp [hmacSuccessOut_length]⟩

theorem output_length_field_policy_witness :
    (hmac_multi_digest_nonnull_output oracleAllOk 1 (some sha256Handle)
        (some sampleInput) (some sampleKey) (some sampleOut32)).out
      = (hmac_multi_digest_nonnull_output oracleAllOk 1 (some sha256Handle)
          (some sampleInput) (some sampleKey) (some sampleOut32)).ret
    ∧ Option.map Stringer.length
        (hmac_multi_digest_nonnull_output oracleAllOk 1 (some sha256Handle)
          (some sampleInput) (some sampleKey) (some sampleOut32)).ret
      = some (if st_valid_tracked sampleOut32 then sha256Handle.mdSize.toNat
              else sampleOut32.length) :=
  (output_length_field_policy oracleAllOk 1 (some sha256Handle) (some sampleInput)
      (some sampleKey) (some sampleOut32)).2 sha256Handle sampleOut32 rfl rfl
    (by decide)

/-- C6: once the HMAC context has been initialized within a call, it is
released on every exit path — context opens and cleanups balance, the
context is opened at most once, and whenever it was opened the very last
event of the call is the context cleanup. -/
theorem hmac_ctx_released_on_every_path (O : HmacOracle) (rounds : Nat)
    (digest : Option Digest) (s key output : Option Stringer) :
    countEv isCtxInitEv (hmac_multi_digest_nonnull_output O rounds digest s key output).trace
      = countEv isCleanupEv (hmac_multi_digest_nonnull_output O rounds digest s key output).trace
    ∧ countEv isCtxInitEv (hmac_multi_digest_nonnull_output O rounds digest s key output).trace ≤ 1
    ∧ (Event.ctxInit ∈ (hmac_multi_digest_nonnull_output O rounds digest s key output).trace →
        (hmac_multi_digest_nonnull_output O rounds digest s key output).trace.getLast?
          = some Event.ctxCleanup) := by
  rcases nonnull_master O rounds digest s key output with ⟨m, hm⟩ |
    ⟨d0, sv0, kv0, ov0, -, -, -, -, -, heq⟩
  · rw [hm]
    exact ⟨by simp [isCtxInitEv, isCleanupEv], by simp [isCtxInitEv], by simp⟩
  · obtain ⟨k, tail, retv, outv, -, hphase, hcases⟩ :=
      hmacRoundPhase_master O rounds d0 sv0 kv0 ov0
    rw [heq, hphase]
    rcases hcases with ⟨ht, -⟩ | ⟨ht, -⟩ | ⟨ht, -⟩ | ⟨ht, -⟩ | ⟨ht, -⟩ <;> subst ht <;>
      exact ⟨by simp [isCtxInitEv, isCleanupEv, isUpdateEv],
        by simp [isCtxInitEv],
        fun _ => getLast_cons_cons_append _ _ _ _ _⟩

theorem hmac_ctx_released_on_every_path_witness :
    (hmac_multi_digest_nonnull_output oracleAllOk 1 (some sha256Handle)
        (some sampleInput) (some sampleKey) (some sampleOut32)).trace.getLast?
      = some Event.ctxCleanup :=
  (hmac_ctx_released_on_every_path oracleAllOk 1 (some sha256Handle)
      (some sampleInput) (some sampleKey) (some sampleOut32)).2.2 (by decide)

/-- C9 counterexample: two calls failing for different reasons (rounds = 0,
and a non-writable buffer) log different diagnostics yet return the identical
value NULL — the returned value does not tell the caller which error
occurred, refuting the claim as stated. -/
theorem error_kinds_indistinguishable_from_return :
    (hmac_multi_digest_nonnull_output oracleAllOk 0 (some sha256Handle)
        (some sampleInput) (some sampleKey) (some sampleOut32)).trace
      ≠ (hmac_multi_digest_nonnull_output oracleAllOk 1 (some sha256Handle)
          (some sampleInput) (some sampleKey) (some sampleOutReadOnly)).trace
    ∧ (hmac_multi_digest_nonnull_output oracleAllOk 0 (some sha256Handle)
        (some sampleInput) (some sampleKey) (some sampleOut32)).ret
      = (hmac_multi_digest_nonnull_output oracleAllOk 1 (some sha256Handle)
          (some sampleInput) (some sampleKey) (some sampleOutReadOnly)).ret := by
  decide

/-- C9 (amended): every failure is returned to the immediate caller as the
failure value NULL — distinguishable from every success — and the kind of
failure is identified by exactly one diagnostic log message per call, not by
the returned value. -/
theorem failures_return_null_with_one_distinct_log (O : HmacOracle) (rounds : Nat)
    (digest : Option Digest) (s key output : Option Stringer) :
    ((hmac_multi_digest_nonnull_output O rounds digest s key output).ret = none ↔
      ∃ m, Event.log m ∈ (hmac_multi_digest_nonnull_output O rounds digest s key output).trace)
    ∧ (∀ m1 m2,
        Event.log m1 ∈ (hmac_multi_digest_nonnull_output O rounds digest s key output).trace →
        Event.log m2 ∈ (hmac_multi_digest_nonnull_output O rounds digest s key output).trace →
        m1 = m2) := by
  rcases nonnull_master O rounds digest s key output with ⟨m, hm⟩ |
    ⟨d0, sv0, kv0, ov0, -, -, -, -, -, heq⟩
  · rw [hm]
    refine ⟨⟨fun _ => ⟨m, by simp⟩, fun _ => rfl⟩, ?_⟩
    intro m1 m2 h1 h2
    simp at h1 h2
    exact h1.trans h2.symm
  · obtain ⟨k, tail, retv, outv, -, hphase, hcases⟩ :=
      hmacRoundPhase_master O rounds d0 sv0 kv0 ov0
    rw [heq, hphase]
    rcases hcases with ⟨ht, hr1, -⟩ | ⟨ht, hr1, -⟩ | ⟨ht, hr1, -⟩ |
        ⟨ht, hr1, -⟩ | ⟨ht, -, -, hr1, -⟩
    · subst ht; subst hr1
      refine ⟨⟨fun _ => ⟨LogMsg.initFailed, by simp⟩, fun _ => rfl⟩, ?_⟩
      intro m1 m2 h1 h2
      simp [List.mem_replicate] at h1 h2
      exact h1.trans h2.symm
    · subst ht; subst hr1
      refine ⟨⟨fun _ => ⟨LogMsg.updateFailed, by simp⟩, fun _ => rfl⟩, ?_⟩
      intro m1 m2 h1 h2
      simp [List.mem_replicate] at h1 h2
      exact h1.trans h2.symm
    · subst ht; subst hr1
      refine ⟨⟨fun _ => ⟨LogMsg.finalFailed, by simp⟩, fun _ => rfl⟩, ?_⟩
      intro m1 m2 h1 h2
      simp [List.mem_replicate] at h1 h2
      exact h1.trans h2.symm
    · subst ht; subst hr1
      refine ⟨⟨fun _ => ⟨LogMsg.sizeMismatch, by simp⟩, fun _ => rfl⟩, ?_⟩
      intro m1 m2 h1 h2
      simp [List.mem_replicate] at h1 h2
      exact h1.trans h2.symm
    · subst ht; subst hr1
      refine ⟨⟨fun hn => by simp at hn, fun hex => ?_⟩, ?_⟩
      · obtain ⟨m, hm⟩ := hex
        simp [List.mem_replicate] at hm
      · intro m1 m2 h1 _
        simp [List.mem_replicate] at h1

theorem failures_return_null_with_one_distinct_log_witness :
    (hmac_multi_digest_nonnull_output oracleAllOk 0 (some sha256Handle)
        (some sampleInput) (some sampleKey) (some sampleOut32)).ret = none :=
  (failures_return_null_with_one_distinct_log oracleAllOk 0 (some sha256Handle)
      (some sampleInput) (some sampleKey) (some sampleOut32)).1.mpr
    ⟨LogMsg.roundsMustBePositive, by decide⟩

/-- C10: the output buffer's data region is either untouched or holds exactly
the bytes a successful finalize wrote at offset 0; in particular, on the
size-mismatch failure path the data region has already been overwritten with
the finalize bytes even though the call returns NULL, while the length field
stays unmodified. -/
theorem data_region_overwritten_on_size_mismatch (O : HmacOracle) (rounds : Nat)
    (digest : Option Digest) (s key output : Option Stringer) :
    (Option.map Stringer.data
        (hmac_multi_digest_nonnull_output O rounds digest s key output).out
      = Option.map Stringer.data output
     ∨ (O.finalOk = true
        ∧ Event.hmacFinal ∈ (hmac_multi_digest_nonnull_output O rounds digest s key output).trace
        ∧ Option.map Stringer.data
            (hmac_multi_digest_nonnull_output O rounds digest s key output).out
          = Option.map (fun ov => writeBytes O.finalBytes ov.data) output))
    ∧ (∀ d sv kv ov, digest = some d → s = some sv → key = some kv → output = some ov →
        validationsPass rounds d sv kv ov → oracleRuns O rounds →
        d.mdSize.toNat ≠ O.finalBytes.length →
        (hmac_multi_digest_nonnull_output O rounds digest s key output).ret = none
        ∧ Option.map Stringer.data
            (hmac_multi_digest_nonnull_output O rounds digest s key output).out
          = some (writeBytes O.finalBytes ov.data)
        ∧ Option.map Stringer.length
            (hmac_multi_digest_nonnull_output O rounds digest s key output).out
          = some ov.length) := by
  constructor
  · rcases nonnull_master O rounds digest s key output with ⟨m, hm⟩ |
      ⟨d0, sv0, kv0, ov0, -, -, -, hout, -, heq⟩
    · rw [hm]
      exact Or.inl rfl
    · subst hout
      obtain ⟨k, tail, retv, outv, -, hphase, hcases⟩ :=
        hmacRoundPhase_master O rounds d0 sv0 kv0 ov0
      rw [heq, hphase]
      rcases hcases with ⟨ht, -, ho1⟩ | ⟨ht, -, ho1⟩ | ⟨ht, -, ho1⟩ |
          ⟨ht, -, hf, -, ho1⟩ | ⟨ht, hf, -, -, ho1⟩
      · subst ht; subst ho1; exact Or.inl rfl
      · subst ht; subst ho1; exact Or.inl rfl
      · subst ht; subst ho1; exact Or.inl rfl
      · subst ht; subst ho1
        exact Or.inr ⟨hf, by simp, by simp⟩
      · subst ht; subst ho1
        exact Or.inr ⟨hf, by simp, by simp [hmacSuccessOut_data]⟩
  · intro d sv kv ov hdig hsom hkom hout hv hO hne
    subst hdig; subst hsom; subst hkom; subst hout
    rw [nonnull_valid_eq O rounds d sv kv ov hv,
        hmacRoundPhase_run_mismatch O rounds d sv kv ov hO hne]
    exact ⟨rfl, by simp, by simp⟩

theorem data_region_overwritten_on_size_mismatch_witness :
    (hmac_multi_digest_nonnull_output oracleShortFinal 1 (some sha256Handle)
        (some sampleInput) (some sampleKey) (some sampleOut32)).ret = none
    ∧ Option.map Stringer.data
        (hmac_multi_digest_nonnull_output oracleShortFinal 1 (some sha256Handle)
          (some sampleInput) (some sampleKey) (some sampleOut32)).out
      = some (writeBytes oracleShortFinal.finalBytes sampleOut32.data)
    ∧ Option.map Stringer.length
        (hmac_multi_digest_nonnull_output oracleShortFinal 1 (some sha256Handle)
          (some sampleInput) (some sampleKey) (some sampleOut32)).out
      = some sampleOut32.length :=
  (data_region_overwritten_on_size_mismatch oracleShortFinal 1 (some sha256Handle)
      (some sampleInput) (some sampleKey) (some sampleOut32)).2 sha256Handle
    sampleInput sampleKey sampleOut32 rfl rfl rfl rfl (by decide) (by decide)
    (by decide)

/-- C7: in the auto-allocation path, an allocation failure is reported
without attempting the round protocol; when the allocation succeeds but the
round engine fails, the allocated buffer is freed (the free is the last
event) and NULL is returned — the allocation is neither leaked nor handed to
the caller; on success the freshly allocated (now written) buffer is returned
and never freed. -/
theorem auto_alloc_buffer_never_leaks (O : HmacOracle) (A : AllocOracle)
    (rounds : Nat) (d : Digest) (s key : Option Stringer) :
    (A.allocOk = false →
      hmac_multi_digest_null_output O A rounds (some d) s key
        = { ret := none, out := none
            trace := [Event.alloc (sizeTToNat d.mdSize), Event.log LogMsg.allocFailed]
            crashed := false })
    ∧ (A.allocOk = true →
        ((hmac_multi_digest_nonnull_output O rounds (some d) s key
            (some (allocBuffer A (sizeTToNat d.mdSize)))).ret = none →
          (hmac_multi_digest_null_output O A rounds (some d) s key).ret = none
          ∧ (hmac_multi_digest_null_output O A rounds (some d) s key).trace
            = (Event.alloc (sizeTToNat d.mdSize)
                :: (hmac_multi_digest_nonnull_output O rounds (some d) s key
                    (some (allocBuffer A (sizeTToNat d.mdSize)))).trace)
              ++ [Event.free])
        ∧ (∀ o, (hmac_multi_digest_nonnull_output O rounds (some d) s key
              (some (allocBuffer A (sizeTToNat d.mdSize)))).ret = some o →
            hmac_multi_digest_null_output O A rounds (some d) s key
              = { ret := some o, out := none
                  trace := Event.alloc (sizeTToNat d.mdSize)
                    :: (hmac_multi_digest_nonnull_output O rounds (some d) s key
                        (some (allocBuffer A (sizeTToNat d.mdSize)))).trace
                  crashed := false }
            ∧ Event.free ∉ (hmac_multi_digest_null_output O A rounds (some d) s key).trace)) := by
  constructor
  · intro hA
    simp [hmac_multi_digest_null_output, st_alloc, hA]
  · intro hA
    constructor
    · intro hret
      simp [hmac_multi_digest_null_output, st_alloc, hA, hret]
    · intro o hret
      constructor
      · simp [hmac_multi_digest_null_output, st_alloc, hA, hret, nonnull_not_crashed]
      · simp [hmac_multi_digest_null_output, st_alloc, hA, hret, nonnull_no_free]

theorem auto_alloc_buffer_never_leaks_witness :
    (hmac_multi_digest_null_output oracleAllOk allocAlwaysOk 0 (some sha256Handle)
        (some sampleInput) (some sampleKey)).ret = none
    ∧ (hmac_multi_digest_null_output oracleAllOk allocAlwaysOk 0 (some sha256Handle)
        (some sampleInput) (some sampleKey)).trace
      = (Event.alloc (sizeTToNat sha256Handle.mdSize)
          :: (hmac_multi_digest_nonnull_output oracleAllOk 0 (some sha256Handle)
              (some sampleInput) (some sampleKey)
              (some (allocBuffer allocAlwaysOk (sizeTToNat sha256Handle.mdSize)))).trace)
        ++ [Event.free] :=
  ((auto_alloc_buffer_never_leaks oracleAllOk allocAlwaysOk 0 sha256Handle
      (some sampleInput) (some sampleKey)).2 rfl).1 (by decide)

/-- C2 (code bug): in the auto-allocation path the code performs NO
resolution-failure check at all — a non-positive reported size is passed
straight to the allocator (the allocation is attempted, and the invalid size
is only caught later, inside the validated path, after which the buffer is
freed), and an absent digest handle is dereferenced by `EVP_MD_size_d`
without a NULL check.  Evaluated here at the failing inputs: a handle of
reported size 0, and an absent handle. -/
theorem auto_alloc_ignores_resolution_failure :
    (hmac_multi_digest_null_output oracleAllOk allocAlwaysOk 1
        (some { mdSize := 0 }) (some sampleInput) (some sampleKey)).ret = none
    ∧ Event.alloc 0 ∈
        (hmac_multi_digest_null_output oracleAllOk allocAlwaysOk 1
          (some { mdSize := 0 }) (some sampleInput) (some sampleKey)).trace
    ∧ Event.log LogMsg.invalidDigestSize ∈
        (hmac_multi_digest_null_output oracleAllOk allocAlwaysOk 1
          (some { mdSize := 0 }) (some sampleInput) (some sampleKey)).trace
    ∧ (hmac_multi_digest_null_output oracleAllOk allocAlwaysOk 1 none
        (some sampleInput) (some sampleKey)).crashed = true := by
  decide

end Magma.Hmac
